import Mathlib

/-!
Verification development for the core of `vue-simple-validation`:
the validation-rule container, field container, message container and the
orchestrating `Validator` (sources: `src/validator.js`, `src/field-container.js`,
`src/message-container.js`, `src/validation-container.js`, and the `clone`
helper at the top of `validation.js`).

Modelling conventions:
* JavaScript runtime values are modelled by `JSVal` (numbers as integers;
  float-specific JSON behaviour is out of scope of every claim considered).
* DOM / Vue collaborators (`el.classList`, `vnode`, `$forceUpdate`) are
  excluded, as the spec excludes them; `el` is kept only as the truthiness
  bit tested by `FieldContainer._isValidField`.
* Thrown JS errors are modelled by `VErr`; a thrown native `TypeError`
  (property access on `undefined`) is `VErr.typeError`.
* Operations that can throw return the reached state together with an
  `Except`, so partial mutation before a throw is modelled faithfully.
-/

namespace VSV

/-- Model of a JavaScript runtime value.  `func tag` stands for an arbitrary
function value (JSON-unserialisable); `undefined` models `undefined`. -/
inductive JSVal where
  | undefined
  | null
  | bool (b : Bool)
  | num (n : Int)
  | str (s : String)
  | func (tag : Nat)
  | arr (elems : List JSVal)
  | obj (props : List (String × JSVal))

mutual

/-- Image of a value under `JSON.parse(JSON.stringify(·))`:
`undefined` and functions are unrepresentable (`none` at top level, dropped
as object properties, replaced by `null` as array elements). -/
def jsonNorm : JSVal → Option JSVal
  | .undefined => none
  | .func _ => none
  | .null => some .null
  | .bool b => some (.bool b)
  | .num n => some (.num n)
  | .str s => some (.str s)
  | .arr xs => some (.arr (jsonNormElems xs))
  | .obj ps => some (.obj (jsonNormProps ps))

/-- Array elements that serialise to nothing become `null`. -/
def jsonNormElems : List JSVal → List JSVal
  | [] => []
  | x :: xs => (jsonNorm x).getD .null :: jsonNormElems xs

/-- Object properties whose values serialise to nothing are dropped. -/
def jsonNormProps : List (String × JSVal) → List (String × JSVal)
  | [] => []
  | (k, v) :: ps =>
    match jsonNorm v with
    | some w => (k, w) :: jsonNormProps ps
    | none => jsonNormProps ps

end

/-- Thrown JavaScript errors of the modelled code.  The string literals
thrown by the source are mapped one-to-one: `invalidRule` for
"Not a correct validation object.", `invalidField` for "Not a valid field.",
`unknownRule` for "No known validation or fallback validation ...",
`noId` for "Unable to validate field without id.", `fieldNotFound` for
"Unable to validate field: field not found." (dead code in the source),
`typeError` for a native TypeError (property access on `undefined`) and
`jsonError` for the SyntaxError of `JSON.parse(undefined)`. -/
inductive VErr where
  | invalidRule
  | invalidField
  | unknownRule
  | noId
  | fieldNotFound
  | typeError
  | jsonError
deriving DecidableEq

/-- The `clone` helper at the top of `validation.js`: substitutes the empty
string for `undefined`, then round-trips through JSON. Stringifying a bare
function yields `undefined`, whose parse throws, modelled as `jsonError`. -/
def clone (v : JSVal) : Except VErr JSVal :=
  match jsonNorm (match v with | .undefined => .str "" | x => x) with
  | some w => .ok w
  | none => .error .jsonError

/-- A rule's `message`: the source stores either a string or a function of
`(value, previousValue)`. -/
inductive MessageSpec where
  | text (s : String)
  | fn (f : JSVal → JSVal → String)

/-- A sub-state's `message`: a string or a function of
`(value, previousValue, data)`. -/
inductive StateMessageSpec where
  | text (s : String)
  | fn (f : JSVal → JSVal → JSVal → String)

/-- A rule's `data`: a plain value or a function of the field's value.
The source also passes `field.el` (a DOM node) to the function; the DOM is
outside this model, so that argument is dropped. -/
inductive DataSpec where
  | value (v : JSVal)
  | fn (f : JSVal → JSVal)

/-- One named sub-state of a rule (`vObj.states[key]`) with its required
predicate and optional message. -/
structure SubState where
  validate : JSVal → JSVal → JSVal → Bool
  message : Option StateMessageSpec

/-- A validation object (`vObj`).  Every field models a JS object property:
`none` plays the role of an absent (or not-a-function / not-a-string)
property, matching what the source's `typeof` checks distinguish. -/
structure VRule where
  message : Option MessageSpec := none
  validate : Option (JSVal → Bool) := none
  comparison : Option (JSVal → JSVal → Bool) := none
  data : Option DataSpec := none
  states : Option (List (String × SubState)) := none

/-- First-match association-list lookup, modelling `object[key]` for the JS
objects (unique keys) modelled as `List (String × _)`. -/
def lookupA {α : Type} (l : List (String × α)) (k : String) : Option α :=
  match l.find? (fun p => p.1 == k) with
  | some p => some p.2
  | none => none

/-- Update-or-append on an association list, modelling `object[key] = v`
(an existing key keeps its position; a new key is appended). -/
def setEntry {α : Type} (l : List (String × α)) (k : String) (v : α) :
    List (String × α) :=
  if l.any (fun p => p.1 == k) then
    l.map (fun p => if p.1 == k then (k, v) else p)
  else l ++ [(k, v)]

/-- The rule registry (`ValidationContainer` in `validation-container.js`):
named validation objects plus the optional fallback passed to the
constructor (the fallback is stored unchecked and unnormalised). -/
structure ValidationContainer where
  validations : List (String × VRule)
  fallback : Option VRule

/-- The shape check `ValidationContainer._isValidation`:
`obj && typeof obj.validate === 'function' && typeof obj.message === 'string'`
(a rule value is always an object in this model). -/
def ValidationContainer.isValidation (r : VRule) : Bool :=
  r.validate.isSome && (match r.message with | some (.text _) => true | _ => false)

/-- The loop body of `ValidationContainer.add` over the keys it is given:
each passing rule gets `states` defaulted to the empty mapping and is
stored under its key; the first failing rule throws, aborting the loop but
keeping the entries already stored. -/
def ValidationContainer.addGo (c : ValidationContainer) :
    List (String × VRule) → ValidationContainer × Except VErr Unit
  | [] => (c, .ok ())
  | (k, r) :: rest =>
    if ValidationContainer.isValidation r then
      ValidationContainer.addGo
        { c with validations :=
            setEntry c.validations k { r with states := some (r.states.getD []) } }
        rest
    else (c, .error .invalidRule)

/-- `ValidationContainer.add(toAdd)`, iterating the object's keys. -/
def ValidationContainer.add (c : ValidationContainer) (toAdd : List (String × VRule)) :
    ValidationContainer × Except VErr Unit :=
  c.addGo toAdd

/-- `Object.assign({}, fallback, validation)`: per property, the stored
validation's value when the property is present, otherwise the fallback's. -/
def orO {α : Type} (a b : Option α) : Option α :=
  match a with
  | some x => some x
  | none => b

/-- Shallow merge of the stored rule over the fallback, as built by
`ValidationContainer.get`. -/
def mergeRule (fb v : Option VRule) : VRule :=
  { message := orO (v.bind VRule.message) (fb.bind VRule.message)
    validate := orO (v.bind VRule.validate) (fb.bind VRule.validate)
    comparison := orO (v.bind VRule.comparison) (fb.bind VRule.comparison)
    data := orO (v.bind VRule.data) (fb.bind VRule.data)
    states := orO (v.bind VRule.states) (fb.bind VRule.states) }

/-- `ValidationContainer.get(id)`: looks the id up among the stored keys
(`id` may be `undefined`, modelled as `none`, which matches no key), throws
when neither a stored rule nor a fallback exists, and otherwise returns the
stored rule merged over the fallback. -/
def ValidationContainer.get (c : ValidationContainer) (id : Option String) :
    Except VErr VRule :=
  let validation := id.bind (fun i => lookupA c.validations i)
  if c.fallback.isNone && validation.isNone then .error .unknownRule
  else .ok (mergeRule c.fallback validation)

/-- A field's `group` attribute: a single name or an array of names. -/
inductive FieldGroup where
  | one (name : String)
  | many (names : List String)

/-- A registered field as stored in the field container.  `el` keeps only
the truthiness of the DOM node tested by `_isValidField`; `valid := none`
models the initial `null`; `states` is absent before the first validation,
modelled as the empty list. -/
structure Field where
  id : String
  el : Bool
  title : Option String
  group : Option FieldGroup
  validationMethod : String
  data : JSVal
  value : JSVal
  initialValue : JSVal
  dirty : Bool
  touched : Bool
  valid : Option Bool
  states : List (String × Bool)

/-- A field-registration request as handed to `Validator.register` /
`FieldContainer.add`.  `validationMethod := none` models an absent or falsy
method (defaulted to `"required"` on storage); `data` is filled in by
`Validator.register` before storage. -/
structure FieldSpec where
  id : String
  el : Bool
  title : Option String := none
  group : Option FieldGroup := none
  validationMethod : Option String := none
  value : JSVal
  data : JSVal := .undefined

/-- The field container of `field-container.js`. -/
structure FieldContainer where
  fields : List Field

/-- `FieldContainer.has(id)`: `filter(f => f.id === id).length > 0`. -/
def FieldContainer.has (fc : FieldContainer) (id : String) : Bool :=
  fc.fields.any (fun f => f.id == id)

/-- `FieldContainer.get(id)`: `undefined` for a falsy id, otherwise the
first field with that id. -/
def FieldContainer.get (fc : FieldContainer) (id : String) : Option Field :=
  if id == "" then none else fc.fields.find? (fun f => f.id == id)

/-- `FieldContainer._isValidField`:
`typeof obj === 'object' && obj.id && obj.el` (the first conjunct always
holds in this model). -/
def FieldContainer.isValidField (obj : FieldSpec) : Bool :=
  (obj.id != "") && obj.el

/-- Group filtering in `FieldContainer.all`. -/
def matchesGroup : Option FieldGroup → String → Bool
  | some (.many names), g => names.contains g
  | some (.one name), g => name == g
  | none, _ => false

/-- `FieldContainer.all(group)`: all fields for a falsy group, otherwise
those whose group equals (or, for array groups, contains) the given name. -/
def FieldContainer.all (fc : FieldContainer) (group : Option String) : List Field :=
  match group with
  | some g => if g == "" then fc.fields else fc.fields.filter (fun f => matchesGroup f.group g)
  | none => fc.fields

/-- `FieldContainer.add(obj)`: silent no-op on a duplicate id; throws on a
malformed field; otherwise appends the new field with both `value` and
`initialValue` set to the clone of the supplied value and the defaults of
`initialFieldState`. -/
def FieldContainer.add (fc : FieldContainer) (obj : FieldSpec) :
    FieldContainer × Except VErr Unit :=
  if fc.has obj.id then (fc, .ok ())
  else if FieldContainer.isValidField obj then
    match clone obj.value with
    | .ok w =>
      ({ fields := fc.fields ++
          [{ id := obj.id, el := obj.el, title := obj.title, group := obj.group,
             validationMethod := obj.validationMethod.getD "required",
             data := obj.data, value := w, initialValue := w,
             dirty := false, touched := false, valid := none, states := [] }] }, .ok ())
    | .error e => (fc, .error e)
  else (fc, .error .invalidField)

/-- In-place mutation of the stored field object found by its id (JS object
aliasing: `Object.assign(field, …)` on the entry of `_fields`). -/
def FieldContainer.update (fc : FieldContainer) (id : String) (f' : Field) :
    FieldContainer :=
  { fields := fc.fields.map (fun f => if f.id == id then f' else f) }

/-- A message object as stored by the message container. `message := none`
models an `undefined` message text. -/
structure Message where
  id : String
  title : Option String
  message : Option String
deriving DecidableEq

/-- The message container of `message-container.js`: field id → pushed
messages, in insertion order. -/
structure MessageContainer where
  messages : List (String × List Message)

/-- `MessageContainer.reset(fieldId)`: `this._messages[fieldId] = []`. -/
def MessageContainer.reset (mc : MessageContainer) (fieldId : String) :
    MessageContainer :=
  { messages := setEntry mc.messages fieldId [] }

/-- `MessageContainer.add(fieldId, obj)`: push onto the (possibly created)
entry. -/
def MessageContainer.add (mc : MessageContainer) (fieldId : String) (m : Message) :
    MessageContainer :=
  { messages := setEntry mc.messages fieldId ((lookupA mc.messages fieldId).getD [] ++ [m]) }

/-- `MessageContainer.get(fieldId, name)`: first message with the given
state id, `undefined` when the field has no entry. -/
def MessageContainer.get (mc : MessageContainer) (fieldId name : String) :
    Option Message :=
  (lookupA mc.messages fieldId).bind (fun ms => ms.find? (fun m => m.id == name))

/-- `MessageContainer.first(fieldId)`. -/
def MessageContainer.first (mc : MessageContainer) (fieldId : String) :
    Option Message :=
  (lookupA mc.messages fieldId).bind List.head?

/-- `MessageContainer.all()`: entries with at least one message. -/
def MessageContainer.all (mc : MessageContainer) : List (String × List Message) :=
  mc.messages.filter (fun p => !p.2.isEmpty)

/-- Calling a rule's `comparison` property: a native TypeError when it is
not a function. -/
def callComparison : Option (JSVal → JSVal → Bool) → JSVal → JSVal → Except VErr Bool
  | none, _, _ => .error .typeError
  | some f, a, b => .ok (f a b)

/-- Calling a rule's `validate` property: a native TypeError when it is not
a function. -/
def callPredicate : Option (JSVal → Bool) → JSVal → Except VErr Bool
  | none, _ => .error .typeError
  | some f, v => .ok (f v)

/-- The `states` reduce of `_validateField`:
`Object.keys(vObj.states).reduce((all, key) => { all[key] =
vObj.states[key].validate(value, field.value, field.data); … }, {})`,
evaluated before the assignment, so `field.value` is the pre-revalidation
stored value.  `Object.keys(undefined)` is a native TypeError. -/
def computeStates : Option (List (String × SubState)) → JSVal → JSVal → JSVal →
    Except VErr (List (String × Bool))
  | none, _, _, _ => .error .typeError
  | some l, v, old, d => .ok (l.map (fun p => (p.1, p.2.validate v old d)))

/-- Message-text resolution for the rule's `message`:
`typeof vObj.message === 'function' ? vObj.message(value, field.value) :
vObj.message`. -/
def resolveMessage : Option MessageSpec → JSVal → JSVal → Option String
  | some (.fn f), v, fv => some (f v fv)
  | some (.text s), _, _ => some s
  | none, _, _ => none

/-- Message-text resolution for a sub-state's `message` (third argument
`field.data`). -/
def resolveStateMessage : Option StateMessageSpec → JSVal → JSVal → JSVal → Option String
  | some (.fn f), v, fv, d => some (f v fv d)
  | some (.text s), _, _, _ => some s
  | none, _, _, _ => none

/-- Truthiness of `vObj.states[key].message` (an empty string is falsy). -/
def stateMessageTruthy : Option StateMessageSpec → Bool
  | none => false
  | some (.text s) => s != ""
  | some (.fn _) => true

/-- The sub-state message loop of `_validateField`: for each computed state
in order, when it is true and its rule entry declares a truthy message,
push a message (resolved against the post-assignment `field.value` and the
cached `field.data`).  The rule entry is looked up by key; a missing entry
would be a native TypeError (unreachable for states computed from the same
rule). -/
def buildStateMessages (ruleStates : List (String × SubState)) (v fv d : JSVal)
    (title : Option String) : List (String × Bool) → Except VErr (List Message)
  | [] => .ok []
  | (k, b) :: rest =>
    if b then
      match lookupA ruleStates k with
      | none => .error .typeError
      | some ss =>
        if stateMessageTruthy ss.message then
          match buildStateMessages ruleStates v fv d title rest with
          | .ok ms =>
            .ok ({ id := k, title := title,
                   message := resolveStateMessage ss.message v fv d } :: ms)
          | .error e => .error e
        else buildStateMessages ruleStates v fv d title rest
    else buildStateMessages ruleStates v fv d title rest

/-- The validator of `validator.js`: the three containers (options beyond
`fallbackValidation` only drive DOM side effects and are outside the
model; the fallback lives inside the validation container). -/
structure Validator where
  validationContainer : ValidationContainer
  fieldContainer : FieldContainer
  messageContainer : MessageContainer

/-- Sequencing of throwing steps: run the first step, propagate its throw,
otherwise continue (the `Except` bind, written out for direct reasoning). -/
def exChain {α β : Type} (x : Except VErr α) (k : α → Except VErr β) : Except VErr β :=
  match x with
  | .error e => .error e
  | .ok a => k a

theorem exChain_ok {α β : Type} (a : α) (k : α → Except VErr β) :
    exChain (.ok a) k = k a := rfl

theorem exChain_error {α β : Type} (e : VErr) (k : α → Except VErr β) :
    exChain (.error e) k = .error e := rfl

/-- `Validator._validateField(field, value)` called with a present field
object (each call site passes the stored field found by id).  The source's
`if (!field)` guard cannot fire on this path: reading
`field.validationMethod` for the rule lookup above it already requires a
present field.  Every throw happens before any mutation, so the whole call
is all-or-nothing.  After the `Object.assign`, `field.value` is the cloned
new value; the message texts are resolved against that post-assignment
value, while the sub-state predicates were applied to the pre-assignment
value. -/
def Validator.validateField (V : Validator) (field : Field) (value : JSVal) :
    Except VErr (Validator × Bool) :=
  exChain (V.validationContainer.get (some field.validationMethod)) (fun vObj =>
  exChain (callComparison vObj.comparison field.initialValue value) (fun cmp =>
  exChain (clone value) (fun w =>
  exChain (callPredicate vObj.validate value) (fun valid =>
  exChain (computeStates vObj.states value field.value field.data) (fun sts =>
  exChain (buildStateMessages (vObj.states.getD []) value w field.data field.title sts)
    (fun statePart =>
    let field' : Field :=
      { field with
        value := w, dirty := !cmp,
        touched := field.touched || !cmp, valid := some valid, states := sts }
    let invalidPart : List Message :=
      if valid then [] else
        [{ id := "invalid", title := field.title,
           message := resolveMessage vObj.message value w }]
    .ok ({ V with
            fieldContainer := V.fieldContainer.update field.id field',
            messageContainer :=
              (invalidPart ++ statePart).foldl
                (fun acc m => acc.add field.id m)
                (V.messageContainer.reset field.id) },
         valid)))))))

/-- `Validator.validate(id, value)`: throws for a falsy id; dereferences
the field looked up by id (a native TypeError when no such field was ever
registered — the source reads `field.validationMethod` before any
presence check); short-circuits, returning `undefined` (`none`), when the
rule's comparison judges the value unchanged from the stored one. -/
def Validator.validate (V : Validator) (id : String) (value : JSVal) :
    Validator × Except VErr (Option Bool) :=
  if id == "" then (V, .error .noId)
  else
    match V.fieldContainer.get id with
    | none => (V, .error .typeError)
    | some field =>
      match V.validationContainer.get (some field.validationMethod) with
      | .error e => (V, .error e)
      | .ok vObj =>
        match callComparison vObj.comparison value field.value with
        | .error e => (V, .error e)
        | .ok cmp =>
          if cmp then (V, .ok none)
          else
            match V.validateField field value with
            | .ok (V', valid) => (V', .ok (some valid))
            | .error e => (V, .error e)

/-- `Validator.register(field)`: resolves the rule for the *raw*
`validationMethod` of the request, computes `data` from it, delegates to
`FieldContainer.add` (a silent no-op on a duplicate id), then immediately
re-validates whatever field is now stored under the id with the supplied
value.  The `initialValidateAll` re-render trigger is DOM-only and outside
the model. -/
def Validator.register (V : Validator) (spec : FieldSpec) :
    Validator × Except VErr Unit :=
  match V.validationContainer.get spec.validationMethod with
  | .error e => (V, .error e)
  | .ok vObj =>
    let d : JSVal := match vObj.data with
      | some (.fn f) => f spec.value
      | some (.value v) => v
      | none => .undefined
    match V.fieldContainer.add { spec with data := d } with
    | (fc', .error e) => ({ V with fieldContainer := fc' }, .error e)
    | (fc', .ok _) =>
      let V1 := { V with fieldContainer := fc' }
      match fc'.get spec.id with
      | none => (V1, .error .typeError)
      | some f =>
        match V1.validateField f spec.value with
        | .ok (V', _) => (V', .ok ())
        | .error e => (V1, .error e)

/-- The reduce of `Validator.validateAll` over the snapshot of field ids in
scope: each field is re-validated with its own current value; a throw
keeps the mutations already made to earlier fields. -/
def Validator.validateAllGo (V : Validator) (acc : Bool) :
    List String → Validator × Except VErr Bool
  | [] => (V, .ok acc)
  | id :: ids =>
    match V.fieldContainer.get id with
    | none => (V, .error .typeError)
    | some f =>
      match V.validateField f f.value with
      | .error e => (V, .error e)
      | .ok (V', valid) => V'.validateAllGo (acc && valid) ids

/-- `Validator.validateAll(group)` (the `forceUpdate` re-render trigger is
DOM-only and outside the model). -/
def Validator.validateAll (V : Validator) (group : Option String) :
    Validator × Except VErr Bool :=
  V.validateAllGo true ((V.fieldContainer.all group).map Field.id)

/-- The forEach of `Validator.reset` over the snapshot of all field ids:
`field.initialValue = field.value` (an alias assignment, no clone), then
re-validation with the current value.  The baseline assignment precedes the
re-validation, so it survives a throw from `_validateField`. -/
def Validator.resetGo (V : Validator) : List String → Validator × Except VErr Unit
  | [] => (V, .ok ())
  | id :: ids =>
    match V.fieldContainer.get id with
    | none => (V, .error .typeError)
    | some f =>
      let f1 := { f with initialValue := f.value }
      let V1 := { V with fieldContainer := V.fieldContainer.update id f1 }
      match V1.validateField f1 f.value with
      | .error e => (V1, .error e)
      | .ok (V', _) => V'.resetGo ids

/-- `Validator.reset()`: iterates over every registered field
(`fieldContainer.all()` — the source's reset declares no group
parameter). -/
def Validator.reset (V : Validator) : Validator × Except VErr Unit :=
  V.resetGo (V.fieldContainer.fields.map Field.id)

/-- Models the JavaScript call `reset(group)`: the source's
`Validator.reset` declares no parameters, so an argument passed by the
caller is ignored and every registered field is reset. -/
def Validator.resetWithGroup (V : Validator) (_group : Option String) :
    Validator × Except VErr Unit :=
  V.reset

/-! Helper lemmas about the association-list primitives and the containers. -/

theorem lookupA_nil {α : Type} (k : String) : lookupA ([] : List (String × α)) k = none := rfl

theorem lookupA_cons {α : Type} (p : String × α) (l : List (String × α)) (k : String) :
    lookupA (p :: l) k = if p.1 == k then some p.2 else lookupA l k := by
  by_cases h : p.1 == k
  · simp [lookupA, List.find?_cons_of_pos, h]
  · simp [lookupA, List.find?_cons_of_neg, h]

theorem lookupA_append {α : Type} (l1 l2 : List (String × α)) (k : String) :
    lookupA (l1 ++ l2) k =
      match lookupA l1 k with
      | some v => some v
      | none => lookupA l2 k := by
  induction l1 with
  | nil => simp [lookupA_nil]
  | cons p t ih =>
    by_cases hp : (p.1 == k) = true
    · simp [lookupA_cons, hp]
    · simpa [lookupA_cons, hp] using ih

theorem lookupA_eq_none_iff {α : Type} (l : List (String × α)) (k : String) :
    lookupA l k = none ↔ l.any (fun p => p.1 == k) = false := by
  induction l with
  | nil => simp [lookupA_nil]
  | cons p t ih =>
    by_cases hp : (p.1 == k) = true
    · simp [lookupA_cons, hp]
    · simpa [lookupA_cons, hp] using ih

theorem lookupA_map_set_self {α : Type} (l : List (String × α)) (k : String) (v : α) :
    lookupA (l.map (fun p => if p.1 == k then (k, v) else p)) k =
      if l.any (fun p => p.1 == k) then some v else none := by
  induction l with
  | nil => simp [lookupA_nil]
  | cons p t ih =>
    rw [List.map_cons, lookupA_cons, List.any_cons]
    by_cases hp : (p.1 == k) = true
    · rw [if_pos hp]
      simp [hp]
    · rw [if_neg hp]
      have hf : (p.1 == k) = false := Bool.eq_false_iff.mpr hp
      rw [hf]
      simpa using ih

theorem lookupA_map_set_ne {α : Type} (l : List (String × α)) (k k' : String) (v : α)
    (h : k' ≠ k) :
    lookupA (l.map (fun p => if p.1 == k then (k, v) else p)) k' = lookupA l k' := by
  induction l with
  | nil => simp [lookupA_nil]
  | cons p t ih =>
    rw [List.map_cons, lookupA_cons, lookupA_cons]
    by_cases hp : (p.1 == k) = true
    · have hpk : p.1 = k := by simpa using hp
      have h1 : (k == k') = false := by simpa using Ne.symm h
      have h2 : (p.1 == k') = false := by simpa [hpk] using Ne.symm h
      rw [if_pos hp]
      simp only [h1, h2, Bool.false_eq_true, if_false]
      simpa using ih
    · rw [if_neg hp]
      by_cases hq : (p.1 == k') = true
      · simp [hq]
      · simp only [hq, Bool.false_eq_true, if_false]
        simpa using ih

theorem lookupA_setEntry_self {α : Type} (l : List (String × α)) (k : String) (v : α) :
    lookupA (setEntry l k v) k = some v := by
  unfold setEntry
  by_cases h : (l.any (fun p => p.1 == k)) = true
  · rw [if_pos h, lookupA_map_set_self, if_pos h]
  · have h' : l.any (fun p => p.1 == k) = false := Bool.eq_false_iff.mpr h
    have hnone : lookupA l k = none := (lookupA_eq_none_iff l k).mpr h'
    rw [if_neg h, lookupA_append, hnone]
    simp [lookupA_cons]

theorem lookupA_setEntry_ne {α : Type} (l : List (String × α)) (k k' : String) (v : α)
    (h : k' ≠ k) : lookupA (setEntry l k v) k' = lookupA l k' := by
  unfold setEntry
  by_cases ha : (l.any (fun p => p.1 == k)) = true
  · rw [if_pos ha, lookupA_map_set_ne _ _ _ _ h]
  · have h1 : (k == k') = false := by simpa using Ne.symm h
    rw [if_neg ha, lookupA_append]
    cases hl : lookupA l k' with
    | some v' => rfl
    | none => simp [lookupA_cons, h1, lookupA_nil]

theorem lookupA_mem_of_nodup {α : Type} (l : List (String × α))
    (hnd : (l.map Prod.fst).Nodup) :
    ∀ p ∈ l, lookupA l p.1 = some p.2 := by
  induction l with
  | nil => intro p hp; cases hp
  | cons q t ih =>
    have hnd2 : (q.1 :: t.map Prod.fst).Nodup := by rw [List.map_cons] at hnd; exact hnd
    have hnd' := List.nodup_cons.mp hnd2
    intro p hp
    rcases List.mem_cons.mp hp with hq | hp
    · subst hq; simp [lookupA_cons]
    · have hne : (q.1 == p.1) = false := by
        simp only [beq_eq_false_iff_ne, ne_eq]
        intro hq
        exact hnd'.1 (hq ▸ List.mem_map.mpr ⟨p, hp, rfl⟩)
      simpa [lookupA_cons, hne] using ih hnd'.2 p hp

theorem messageAdd_lookup (mc : MessageContainer) (fid : String) (m : Message) :
    lookupA (mc.add fid m).messages fid =
      some ((lookupA mc.messages fid).getD [] ++ [m]) :=
  lookupA_setEntry_self _ _ _

theorem messagesFold_lookup (fid : String) (msgs : List Message) :
    ∀ (mc : MessageContainer) (cur : List Message),
      lookupA mc.messages fid = some cur →
      lookupA ((msgs.foldl (fun acc m => acc.add fid m) mc).messages) fid =
        some (cur ++ msgs) := by
  induction msgs with
  | nil => intro mc cur h; simpa using h
  | cons m ms ih =>
    intro mc cur h
    rw [List.foldl_cons]
    have h1 : lookupA (mc.add fid m).messages fid = some (cur ++ [m]) := by
      rw [messageAdd_lookup, h]; rfl
    simpa using ih (mc.add fid m) (cur ++ [m]) h1

theorem messages_after_replace (mc : MessageContainer) (fid : String)
    (msgs : List Message) :
    lookupA ((msgs.foldl (fun acc m => acc.add fid m) (mc.reset fid)).messages) fid =
      some msgs := by
  have h0 : lookupA (mc.reset fid).messages fid = some [] :=
    lookupA_setEntry_self _ _ _
  simpa using messagesFold_lookup fid msgs (mc.reset fid) [] h0

theorem FieldContainer.get_update (fc : FieldContainer) (k : String) (f' : Field)
    (hk : f'.id = k) (id : String) :
    (fc.update k f').get id = (fc.get id).map (fun g => if g.id == k then f' else g) := by
  unfold FieldContainer.get FieldContainer.update
  by_cases hid : (id == "") = true
  · simp [hid]
  · simp only [hid, Bool.false_eq_true, if_false]
    rw [List.find?_map]
    have hcomp : ((fun f : Field => f.id == id) ∘ (fun g => if g.id == k then f' else g)) =
        (fun g : Field => g.id == id) := by
      funext g
      by_cases hg : (g.id == k) = true
      · have : g.id = k := by simpa using hg
        simp [Function.comp, hg, hk, this]
      · simp [Function.comp, hg]
    rw [hcomp]

theorem FieldContainer.update_map_id (fc : FieldContainer) (k : String) (f' : Field)
    (h : f'.id = k) :
    (fc.update k f').fields.map Field.id = fc.fields.map Field.id := by
  unfold FieldContainer.update
  rw [List.map_map]
  apply List.map_congr_left
  intro g hg
  by_cases hgk : (g.id == k) = true
  · have hk2 : g.id = k := by simpa using hgk
    simp [Function.comp, hgk, h, hk2]
  · simp [Function.comp, hgk]

theorem FieldContainer.get_eq_some (fc : FieldContainer) (id : String) (f : Field)
    (h : fc.get id = some f) :
    f.id = id ∧ f ∈ fc.fields ∧ fc.has id = true := by
  unfold FieldContainer.get at h
  by_cases hid : (id == "") = true
  · rw [if_pos hid] at h; cases h
  · rw [if_neg hid] at h
    have hfid := List.find?_some h
    have hmem : f ∈ fc.fields := List.mem_of_find?_eq_some h
    exact ⟨by simpa using hfid, hmem,
      List.any_eq_true.mpr ⟨f, hmem, hfid⟩⟩

theorem validateField_eq (V : Validator) (field : Field) (value : JSVal)
    (vObj : VRule) (cmp : Bool) (w : JSVal) (valid : Bool)
    (sts : List (String × Bool)) (statePart : List Message)
    (hr : V.validationContainer.get (some field.validationMethod) = .ok vObj)
    (hc : callComparison vObj.comparison field.initialValue value = .ok cmp)
    (hw : clone value = .ok w)
    (hp : callPredicate vObj.validate value = .ok valid)
    (hs : computeStates vObj.states value field.value field.data = .ok sts)
    (hb : buildStateMessages (vObj.states.getD []) value w field.data field.title sts =
      .ok statePart) :
    V.validateField field value = .ok
      ({ V with
         fieldContainer := V.fieldContainer.update field.id
           { field with
             value := w, dirty := !cmp, touched := field.touched || !cmp,
             valid := some valid, states := sts },
         messageContainer :=
           ((if valid then [] else
             [({ id := "invalid", title := field.title,
                 message := resolveMessage vObj.message value w } : Message)]) ++
             statePart).foldl
             (fun acc m => acc.add field.id m) (V.messageContainer.reset field.id) },
       valid) := by
  unfold Validator.validateField
  rw [hr, exChain_ok, hc, exChain_ok, hw, exChain_ok, hp, exChain_ok, hs, exChain_ok,
    hb, exChain_ok]

theorem validateField_ok_inv (V : Validator) (field : Field) (value : JSVal)
    (V' : Validator) (b : Bool)
    (h : V.validateField field value = .ok (V', b)) :
    ∃ vObj cmp w sts statePart,
      V.validationContainer.get (some field.validationMethod) = .ok vObj ∧
      callComparison vObj.comparison field.initialValue value = .ok cmp ∧
      clone value = .ok w ∧
      callPredicate vObj.validate value = .ok b ∧
      computeStates vObj.states value field.value field.data = .ok sts ∧
      buildStateMessages (vObj.states.getD []) value w field.data field.title sts =
        .ok statePart ∧
      V' = { V with
             fieldContainer := V.fieldContainer.update field.id
               { field with
                 value := w, dirty := !cmp, touched := field.touched || !cmp,
                 valid := some b, states := sts },
             messageContainer :=
               ((if b then [] else
                 [({ id := "invalid", title := field.title,
                     message := resolveMessage vObj.message value w } : Message)]) ++
                 statePart).foldl
                 (fun acc m => acc.add field.id m)
                 (V.messageContainer.reset field.id) } := by
  unfold Validator.validateField at h
  cases h1 : V.validationContainer.get (some field.validationMethod) with
  | error e => rw [h1, exChain_error] at h; exact Except.noConfusion h
  | ok vObj =>
  rw [h1, exChain_ok] at h
  cases h2 : callComparison vObj.comparison field.initialValue value with
  | error e => rw [h2, exChain_error] at h; exact Except.noConfusion h
  | ok cmp =>
  rw [h2, exChain_ok] at h
  cases h3 : clone value with
  | error e => rw [h3, exChain_error] at h; exact Except.noConfusion h
  | ok w =>
  rw [h3, exChain_ok] at h
  cases h4 : callPredicate vObj.validate value with
  | error e => rw [h4, exChain_error] at h; exact Except.noConfusion h
  | ok valid =>
  rw [h4, exChain_ok] at h
  cases h5 : computeStates vObj.states value field.value field.data with
  | error e => rw [h5, exChain_error] at h; exact Except.noConfusion h
  | ok sts =>
  rw [h5, exChain_ok] at h
  cases h6 : buildStateMessages (vObj.states.getD []) value w field.data field.title sts with
  | error e => rw [h6, exChain_error] at h; exact Except.noConfusion h
  | ok statePart =>
  rw [h6, exChain_ok] at h
  have h7 := Except.ok.inj h
  injection h7 with hV hb2
  subst hb2
  exact ⟨vObj, cmp, w, sts, statePart, rfl, h2, rfl, h4, h5, h6, hV.symm⟩

/-! Concrete rules, fields and validators used by witnesses and
counterexamples. -/

/-- String equality, a concrete `comparison` function for rules used in
witnesses. -/
def strEq : JSVal → JSVal → Bool
  | .str a, .str b => a == b
  | _, _ => false

/-- A well-formed concrete rule: string message, always-true predicate. -/
def reqRule : VRule :=
  { message := some (.text "This field is required."),
    validate := some (fun _ => true),
    comparison := some strEq,
    states := some [] }

/-- A concrete registered field bound to the rule name "req", currently
holding the string "a". -/
def fieldA : Field :=
  { id := "f", el := true, title := none, group := none, validationMethod := "req",
    data := .undefined, value := .str "a", initialValue := .str "a",
    dirty := false, touched := false, valid := some true, states := [] }

/-- A concrete validator with the rule "req" and the single field "f". -/
def validatorA : Validator :=
  { validationContainer := { validations := [("req", reqRule)], fallback := none },
    fieldContainer := { fields := [fieldA] },
    messageContainer := { messages := [] } }

/-- C2: `validate` at the failing input.  With the never-registered id
"ghost" the call throws the native TypeError raised by reading
`field.validationMethod` of `undefined` — not the designed
field-not-found error, whose guard in `_validateField` is dead code — and
changes no field or message state; with a falsy id it throws the designed
no-id error, also changing nothing. -/
theorem C2_validate_unregistered_id_evaluation :
    validatorA.validate "ghost" (.str "x") = (validatorA, .error .typeError) ∧
    validatorA.validate "" (.str "x") = (validatorA, .error .noId) ∧
    VErr.typeError ≠ VErr.fieldNotFound ∧ VErr.typeError ≠ VErr.noId :=
  ⟨rfl, rfl, by decide, by decide⟩

/-- C3 counterexample: a rule whose predicate is callable and whose
`message` is a function (hence "string or callable") is REJECTED by
registration with the invalid-rule error, and no registry entry is
created — refuting the claim that such a rule is accepted. -/
def fnMessageRule : VRule :=
  { message := some (.fn (fun _ _ => "computed")),
    validate := some (fun _ => true) }

/-- The empty rule registry (no fallback). -/
def emptyRegistry : ValidationContainer := { validations := [], fallback := none }

theorem C3_counterexample :
    fnMessageRule.validate.isSome = true ∧
    emptyRegistry.add [("custom", fnMessageRule)] = (emptyRegistry, .error .invalidRule) :=
  ⟨rfl, rfl⟩

/-- C3 (amended): registration of a rule succeeds iff its predicate
(`validate`) is callable and its `message` is a string — a function-valued
message is rejected like any other non-string — and on rejection the
invalid-rule error is thrown with the registry left unchanged. -/
theorem C3_registration_requires_string_message (c : ValidationContainer)
    (k : String) (r : VRule) :
    (r.validate.isSome = true ∧ (∃ s, r.message = some (.text s)) →
      c.add [(k, r)] =
        ({ c with validations :=
            setEntry c.validations k { r with states := some (r.states.getD []) } },
         .ok ())) ∧
    (¬ (r.validate.isSome = true ∧ ∃ s, r.message = some (.text s)) →
      c.add [(k, r)] = (c, .error .invalidRule)) := by
  have hiff : ValidationContainer.isValidation r = true ↔
      (r.validate.isSome = true ∧ ∃ s, r.message = some (.text s)) := by
    unfold ValidationContainer.isValidation
    cases hm : r.message with
    | none => simp [hm]
    | some ms =>
      cases ms with
      | text s => simp [hm]
      | fn f => simp [hm]
  constructor
  · intro hyp
    simp [ValidationContainer.add, ValidationContainer.addGo, hiff.mpr hyp]
  · intro hyp
    have hfalse : ValidationContainer.isValidation r = false :=
      Bool.eq_false_iff.mpr (fun h => hyp (hiff.mp h))
    simp [ValidationContainer.add, ValidationContainer.addGo, hfalse]

/-- C3 witness: the amended theorem applied to a concrete well-formed rule
(string message): registration succeeds and stores it. -/
theorem C3_witness :
    (reqRule.validate.isSome = true ∧ ∃ s, reqRule.message = some (.text s)) ∧
    emptyRegistry.add [("req", reqRule)] =
      ({ emptyRegistry with
         validations := setEntry emptyRegistry.validations "req"
           { reqRule with states := some (reqRule.states.getD []) } }, .ok ()) :=
  ⟨⟨rfl, ⟨"This field is required.", rfl⟩⟩,
    (C3_registration_requires_string_message emptyRegistry "req" reqRule).1
      ⟨rfl, ⟨"This field is required.", rfl⟩⟩⟩

/-- C9: `get` returns the stored rule shallow-merged over the configured
fallback — each property present in the stored rule wins and each absent
property is filled from the fallback — and throws the unknown-rule error
exactly when no rule with the name is stored and no fallback is
configured. -/
theorem C9_resolve_merges_stored_over_fallback (c : ValidationContainer)
    (name : String) :
    (c.get (some name) = .error .unknownRule ↔
      lookupA c.validations name = none ∧ c.fallback = none) ∧
    (∀ r : VRule, lookupA c.validations name = some r →
      c.get (some name) = .ok
        { message := orO r.message (c.fallback.bind VRule.message),
          validate := orO r.validate (c.fallback.bind VRule.validate),
          comparison := orO r.comparison (c.fallback.bind VRule.comparison),
          data := orO r.data (c.fallback.bind VRule.data),
          states := orO r.states (c.fallback.bind VRule.states) }) ∧
    (∀ fb : VRule, lookupA c.validations name = none → c.fallback = some fb →
      c.get (some name) = .ok fb) := by
  refine ⟨?_, ?_, ?_⟩
  · cases hl : lookupA c.validations name with
    | some r => cases hf : c.fallback <;>
        simp [ValidationContainer.get, hl, hf]
    | none => cases hf : c.fallback <;>
        simp [ValidationContainer.get, hl, hf]
  · intro r hl
    cases hf : c.fallback <;>
      simp [ValidationContainer.get, hl, hf, mergeRule, orO]
  · intro fb hl hf
    simp [ValidationContainer.get, hl, hf, mergeRule, orO]

/-- A concrete rule defining a predicate and message but no `comparison`. -/
def noCmpRule : VRule :=
  { message := some (.text "m"), validate := some (fun _ => true), states := some [] }

/-- A concrete registry storing `noCmpRule` with `reqRule` as fallback. -/
def registryWithFallback : ValidationContainer :=
  { validations := [("r", noCmpRule)], fallback := some reqRule }

/-- C9 witness: resolving "r" — which defines a predicate but no equality —
yields the stored message and predicate with the fallback's comparison
filling the gap. -/
theorem C9_witness :
    lookupA registryWithFallback.validations "r" = some noCmpRule ∧
    registryWithFallback.get (some "r") = .ok
      { message := noCmpRule.message,
        validate := noCmpRule.validate,
        comparison := reqRule.comparison,
        data := none,
        states := noCmpRule.states } :=
  ⟨rfl, (C9_resolve_merges_stored_over_fallback registryWithFallback "r").2.1 noCmpRule rfl⟩

/-- C8 counterexample: the short-circuited `validate` call is a no-op on
the state — that much the claim gets right — but it returns `undefined`
(`none`), not the field's previous `valid` boolean (`some true` here). -/
theorem C8_counterexample :
    validatorA.validate "f" (.str "a") = (validatorA, .ok none) ∧
    fieldA.valid = some true ∧
    (none : Option Bool) ≠ some true :=
  ⟨rfl, rfl, by decide⟩

/-- C8 (amended): when the field exists and the resolved rule's comparison
judges the new value unchanged from the field's current stored value,
`validate` leaves the entire validator state unchanged and returns
`undefined` (`none`) — not the previous `valid` boolean. -/
theorem C8_shortcircuit_is_noop_returning_undefined (V : Validator) (id : String)
    (value : JSVal) (field : Field) (vObj : VRule) (cmpF : JSVal → JSVal → Bool)
    (hid : (id == "") = false)
    (hf : V.fieldContainer.get id = some field)
    (hr : V.validationContainer.get (some field.validationMethod) = .ok vObj)
    (hcf : vObj.comparison = some cmpF)
    (heq : cmpF value field.value = true) :
    V.validate id value = (V, .ok none) := by
  unfold Validator.validate
  simp only [hid, Bool.false_eq_true, if_false, hf, hr, hcf, callComparison, heq, if_true]

/-- C8 witness: the amended theorem applied at the concrete short-circuit
input. -/
theorem C8_witness :
    strEq (.str "a") fieldA.value = true ∧
    validatorA.validate "f" (.str "a") = (validatorA, .ok none) :=
  ⟨rfl, C8_shortcircuit_is_noop_returning_undefined validatorA "f" (.str "a") fieldA
    (mergeRule none (some reqRule)) strEq rfl rfl rfl rfl rfl⟩

/-- C10: a successful field registration stores the JSON round-trip image
of the supplied value in both `value` and `initialValue`: an absent
(`undefined`) value is stored as the empty string, and object properties
whose values are functions or `undefined` are silently dropped. -/
theorem C10_stored_value_is_json_image (fc : FieldContainer) (spec : FieldSpec)
    (w : JSVal)
    (hdup : fc.has spec.id = false)
    (hok : FieldContainer.isValidField spec = true)
    (hclone : clone spec.value = .ok w) :
    fc.add spec = ({ fields := fc.fields ++
        [{ id := spec.id, el := spec.el, title := spec.title, group := spec.group,
           validationMethod := spec.validationMethod.getD "required",
           data := spec.data, value := w, initialValue := w,
           dirty := false, touched := false, valid := none, states := [] }] }, .ok ()) ∧
    (spec.value = .undefined → w = .str "") ∧
    (∀ ps, spec.value = .obj ps → w = .obj (jsonNormProps ps)) := by
  refine ⟨?_, ?_, ?_⟩
  · unfold FieldContainer.add
    rw [hdup]
    simp only [Bool.false_eq_true, if_false, hok, if_true, hclone]
  · intro hu
    rw [hu] at hclone
    unfold clone at hclone
    simpa [jsonNorm] using hclone.symm
  · intro ps hps
    rw [hps] at hclone
    unfold clone at hclone
    simpa [jsonNorm] using hclone.symm

/-- A concrete registration request whose value is an object carrying a
string-valued, an `undefined`-valued and a function-valued property. -/
def objSpec : FieldSpec :=
  { id := "g", el := true,
    value := .obj [("a", .str "x"), ("b", .undefined), ("c", .func 0)] }

/-- The field expected to be stored for `objSpec`: the dropped-property
image of the supplied object in both `value` and `initialValue`. -/
def objSpecStored : Field :=
  { id := objSpec.id, el := objSpec.el, title := objSpec.title, group := objSpec.group,
    validationMethod := objSpec.validationMethod.getD "required",
    data := objSpec.data, value := .obj [("a", .str "x")],
    initialValue := .obj [("a", .str "x")],
    dirty := false, touched := false, valid := none, states := [] }

/-- C10 witness: registering `objSpec` into an empty container stores the
object with the `undefined`- and function-valued properties dropped, in
both `value` and `initialValue`. -/
theorem C10_witness :
    (FieldContainer.has ⟨[]⟩ objSpec.id = false ∧
     FieldContainer.isValidField objSpec = true ∧
     clone objSpec.value = .ok (.obj [("a", .str "x")])) ∧
    FieldContainer.add ⟨[]⟩ objSpec = (⟨[objSpecStored]⟩, .ok ()) :=
  ⟨⟨rfl, rfl, rfl⟩,
    (C10_stored_value_is_json_image ⟨[]⟩ objSpec (.obj [("a", .str "x")])
      rfl rfl rfl).1⟩

/-- A fallback rule whose message is a function echoing the textual content
of its second argument (the "previous value" per the spec), with an
always-false predicate. -/
def prevEchoFallback : VRule :=
  { message := some (.fn (fun _ prev => match prev with | .str s => s | _ => "other")),
    validate := some (fun _ => false),
    comparison := some strEq,
    states := some [] }

/-- A field bound to the unregistered rule name "custom" (resolved through
the fallback), currently storing "a". -/
def fieldCustom : Field :=
  { id := "f", el := true, title := none, group := none, validationMethod := "custom",
    data := .undefined, value := .str "a", initialValue := .str "a",
    dirty := false, touched := false, valid := some false, states := [] }

/-- A validator with no stored rules, the `prevEchoFallback` fallback and
the single field `fieldCustom`. -/
def validatorFB : Validator :=
  { validationContainer := { validations := [], fallback := some prevEchoFallback },
    fieldContainer := { fields := [fieldCustom] },
    messageContainer := { messages := [] } }

/-- C1 counterexample: revalidating the field stored as "a" with the new
value "b" under a message function returning its second argument yields
the message text "b" — the deep copy of the NEW value — whereas the claim
(second argument = pre-revalidation stored value) demands "a". -/
theorem C1_counterexample :
    (validatorFB.validate "f" (.str "b")).2 = .ok (some false) ∧
    (validatorFB.validate "f" (.str "b")).1.messageContainer.get "f" "invalid" =
      some { id := "invalid", title := none, message := some "b" } ∧
    ("b" : String) ≠ "a" :=
  ⟨rfl, rfl, by decide⟩

/-- C1 (amended): when revalidation fails the predicate and the rule's
message is a function, the "invalid" message text is the function applied
to (newValue, w) where w is the deep-copy clone of the NEW value — the
field's post-assignment stored value — not the pre-revalidation stored
value; the sub-state messages following it are likewise resolved against
(newValue, w, cached data), as fixed by `buildStateMessages`. -/
theorem C1_message_fn_receives_postupdate_value
    (V V' : Validator) (field : Field) (value w : JSVal) (vObj : VRule)
    (f : JSVal → JSVal → String) (sts : List (String × Bool)) (statePart : List Message)
    (hr : V.validationContainer.get (some field.validationMethod) = .ok vObj)
    (hm : vObj.message = some (.fn f))
    (hw : clone value = .ok w)
    (hs : computeStates vObj.states value field.value field.data = .ok sts)
    (hb : buildStateMessages (vObj.states.getD []) value w field.data field.title sts =
      .ok statePart)
    (hrun : V.validateField field value = .ok (V', false)) :
    lookupA V'.messageContainer.messages field.id =
      some ({ id := "invalid", title := field.title, message := some (f value w) }
        :: statePart) := by
  obtain ⟨vObj2, cmp, w2, sts2, statePart2, h1, h2, h3, h4, h5, h6, hV⟩ :=
    validateField_ok_inv V field value V' false hrun
  rw [hr] at h1
  have hv2 : vObj = vObj2 := Except.ok.inj h1
  subst hv2
  rw [hw] at h3
  have hw2 : w = w2 := Except.ok.inj h3
  subst hw2
  rw [hs] at h5
  have hs2 : sts = sts2 := Except.ok.inj h5
  subst hs2
  rw [hb] at h6
  have hb2 : statePart = statePart2 := Except.ok.inj h6
  subst hb2
  rw [hV]
  rw [show ({ V with
      fieldContainer := V.fieldContainer.update field.id
        { field with
          value := w, dirty := !cmp, touched := field.touched || !cmp,
          valid := some false, states := sts },
      messageContainer :=
        ((if false then [] else
          [({ id := "invalid", title := field.title,
              message := resolveMessage vObj.message value w } : Message)]) ++
          statePart).foldl
          (fun acc m => acc.add field.id m)
          (V.messageContainer.reset field.id) } : Validator).messageContainer =
      ((if false then [] else
        [({ id := "invalid", title := field.title,
            message := resolveMessage vObj.message value w } : Message)]) ++
        statePart).foldl
        (fun acc m => acc.add field.id m)
        (V.messageContainer.reset field.id) from rfl]
  rw [messages_after_replace]
  simp [hm, resolveMessage]

/-- Extraction of the validator state reached by the concrete C1 run. -/
def c1run : Validator :=
  match validatorFB.validateField fieldCustom (.str "b") with
  | .ok p => p.1
  | .error _ => validatorFB

/-- C1 witness: the amended theorem applied at the concrete run — the
"invalid" message of the revalidation of "a" by "b" carries the text "b". -/
theorem C1_witness :
    clone (.str "b") = .ok (.str "b") ∧
    lookupA c1run.messageContainer.messages "f" =
      some [{ id := "invalid", title := none, message := some "b" }] :=
  ⟨rfl, C1_message_fn_receives_postupdate_value validatorFB c1run fieldCustom
    (.str "b") (.str "b") (mergeRule (some prevEchoFallback) none)
    (fun _ prev => match prev with | .str s => s | _ => "other") [] []
    rfl rfl rfl rfl rfl rfl⟩

theorem buildStateMessages_map (full : List (String × SubState)) (v w old d : JSVal)
    (t : Option String) :
    ∀ sub : List (String × SubState),
      (∀ p ∈ sub, lookupA full p.1 = some p.2) →
      buildStateMessages full v w d t (sub.map (fun p => (p.1, p.2.validate v old d))) =
        .ok (sub.filterMap (fun p =>
          if p.2.validate v old d && stateMessageTruthy p.2.message then
            some ({ id := p.1, title := t,
                    message := resolveStateMessage p.2.message v w d } : Message)
          else none)) := by
  intro sub
  induction sub with
  | nil => intro h; rfl
  | cons p rest ih =>
    intro h
    have hhead : lookupA full p.1 = some p.2 := h p (List.mem_cons_self p rest)
    have htail := ih (fun q hq => h q (List.mem_cons_of_mem p hq))
    rw [List.map_cons, List.filterMap_cons]
    unfold buildStateMessages
    by_cases hb : p.2.validate v old d = true
    · rw [if_pos hb]
      by_cases hm : stateMessageTruthy p.2.message = true
      · simp only [hhead, hm, if_true, htail]
        simp [hb, hm]
      · have hm2 : stateMessageTruthy p.2.message = false := Bool.eq_false_iff.mpr hm
        simp only [hhead, hm2, Bool.false_eq_true, if_false, htail]
        simp [hb, hm2]
    · have hb2 : p.2.validate v old d = false := Bool.eq_false_iff.mpr hb
      rw [if_neg hb]
      simp only [htail]
      simp [hb2]

/-- C4: after a successful revalidation, the field's entry in the message
container is entirely replaced and equals: exactly one "invalid" message
when the predicate failed and none when it passed, followed by exactly one
message per currently-true sub-state with a (truthy) declared message, in
rule-declaration order; in particular the number of "invalid"-ids in the
entry is one iff the predicate failed. -/
theorem C4_message_atomicity
    (V V' : Validator) (field : Field) (value w : JSVal) (vObj : VRule)
    (ruleStates : List (String × SubState)) (valid : Bool)
    (hr : V.validationContainer.get (some field.validationMethod) = .ok vObj)
    (hst : vObj.states = some ruleStates)
    (hnd : (ruleStates.map Prod.fst).Nodup)
    (hinv : "invalid" ∉ ruleStates.map Prod.fst)
    (hw : clone value = .ok w)
    (hrun : V.validateField field value = .ok (V', valid)) :
    lookupA V'.messageContainer.messages field.id = some (
      (if valid then [] else
        [({ id := "invalid", title := field.title,
            message := resolveMessage vObj.message value w } : Message)]) ++
      ruleStates.filterMap (fun p =>
        if p.2.validate value field.value field.data && stateMessageTruthy p.2.message then
          some ({ id := p.1, title := field.title,
                  message := resolveStateMessage p.2.message value w field.data } : Message)
        else none)) ∧
    (∀ ms, lookupA V'.messageContainer.messages field.id = some ms →
      ms.countP (fun m => m.id == "invalid") = (if valid then 0 else 1)) := by
  obtain ⟨vObj2, cmp, w2, sts2, statePart2, h1, h2, h3, h4, h5, h6, hV⟩ :=
    validateField_ok_inv V field value V' valid hrun
  rw [hr] at h1
  have hv2 : vObj = vObj2 := Except.ok.inj h1
  subst hv2
  rw [hw] at h3
  have hw2 : w = w2 := Except.ok.inj h3
  subst hw2
  rw [hst] at h5
  unfold computeStates at h5
  have hsts : ruleStates.map (fun p => (p.1, p.2.validate value field.value field.data)) =
      sts2 := Except.ok.inj h5
  rw [hst] at h6
  have hlk := lookupA_mem_of_nodup ruleStates hnd
  rw [show (some ruleStates).getD [] = ruleStates from rfl, ← hsts,
    buildStateMessages_map ruleStates value w field.value field.data field.title
      ruleStates hlk] at h6
  have hsp : ruleStates.filterMap (fun p =>
      if p.2.validate value field.value field.data && stateMessageTruthy p.2.message then
        some ({ id := p.1, title := field.title,
                message := resolveStateMessage p.2.message value w field.data } : Message)
      else none) = statePart2 := Except.ok.inj h6
  have hentry : lookupA V'.messageContainer.messages field.id = some (
      (if valid then [] else
        [({ id := "invalid", title := field.title,
            message := resolveMessage vObj.message value w } : Message)]) ++
      ruleStates.filterMap (fun p =>
        if p.2.validate value field.value field.data && stateMessageTruthy p.2.message then
          some ({ id := p.1, title := field.title,
                  message := resolveStateMessage p.2.message value w field.data } : Message)
        else none)) := by
    rw [hV, hsp]
    exact messages_after_replace _ _ _
  refine ⟨hentry, ?_⟩
  intro ms hms
  rw [hentry] at hms
  have hms2 := Option.some.inj hms
  subst hms2
  rw [List.countP_append]
  have hzero : (ruleStates.filterMap (fun p =>
      if p.2.validate value field.value field.data && stateMessageTruthy p.2.message then
        some ({ id := p.1, title := field.title,
                message := resolveStateMessage p.2.message value w field.data } : Message)
      else none)).countP (fun m => m.id == "invalid") = 0 := by
    rw [List.countP_eq_zero]
    intro m hmem
    obtain ⟨p, hp, hf⟩ := List.mem_filterMap.mp hmem
    by_cases hcond : (p.2.validate value field.value field.data &&
        stateMessageTruthy p.2.message) = true
    · rw [if_pos hcond] at hf
      have hmid : m.id = p.1 := by
        have := Option.some.inj hf
        rw [← this]
      have hne : p.1 ≠ "invalid" := by
        intro hq
        exact hinv (hq ▸ List.mem_map.mpr ⟨p, hp, rfl⟩)
      simp [hmid, hne, Ne.symm hne]
    · rw [if_neg hcond] at hf
      cases hf
  rw [hzero]
  cases valid with
  | true => simp
  | false => simp [List.countP_cons]

/-- A sub-state that is always active and declares a message. -/
def warnState : SubState :=
  { validate := fun _ _ _ => true, message := some (.text "warn msg") }

/-- A sub-state that is always active but declares no message. -/
def quietState : SubState :=
  { validate := fun _ _ _ => true, message := none }

/-- The sub-states of the concrete C4 rule, in declaration order. -/
def c4states : List (String × SubState) :=
  [("warn", warnState), ("quiet", quietState)]

/-- A rule with an always-false predicate and the two sub-states above. -/
def c4rule : VRule :=
  { message := some (.text "base msg"), validate := some (fun _ => false),
    comparison := some strEq, states := some c4states }

/-- A field bound to the C4 rule. -/
def c4field : Field :=
  { id := "f", el := true, title := none, group := none, validationMethod := "c4",
    data := .undefined, value := .str "a", initialValue := .str "a",
    dirty := false, touched := false, valid := some false, states := [] }

/-- A validator holding the C4 rule and field. -/
def c4validator : Validator :=
  { validationContainer := { validations := [("c4", c4rule)], fallback := none },
    fieldContainer := { fields := [c4field] },
    messageContainer := { messages := [] } }

/-- The validator state reached by the concrete C4 revalidation. -/
def c4run : Validator :=
  match c4validator.validateField c4field (.str "b") with
  | .ok p => p.1
  | .error _ => c4validator

/-- C4 witness: the concrete revalidation (predicate false, sub-state
"warn" true with a message, "quiet" true without one) yields exactly the
"invalid" message followed by the "warn" message, and the entry counts one
"invalid" id. -/
theorem C4_witness :
    ((c4states.map Prod.fst).Nodup ∧ "invalid" ∉ c4states.map Prod.fst) ∧
    lookupA c4run.messageContainer.messages "f" = some
      [{ id := "invalid", title := none, message := some "base msg" },
       { id := "warn", title := none, message := some "warn msg" }] ∧
    ([({ id := "invalid", title := none, message := some "base msg" } : Message),
      { id := "warn", title := none, message := some "warn msg" }].countP
        (fun m => m.id == "invalid")) = 1 := by
  have h := C4_message_atomicity c4validator c4run c4field (.str "b") (.str "b")
    (mergeRule none (some c4rule)) c4states false rfl rfl (by decide) (by decide) rfl rfl
  exact ⟨⟨by decide, by decide⟩, h.1, h.2 _ h.1⟩

/-- A validator with the `reqRule` fallback and no fields yet. -/
def emptyValidator : Validator :=
  { validationContainer := { validations := [], fallback := some reqRule },
    fieldContainer := { fields := [] },
    messageContainer := { messages := [] } }

/-- The first registration request ("f" with value "a"). -/
def regSpecA : FieldSpec := { id := "f", el := true, value := .str "a" }

/-- The second registration request for the same id with value "b". -/
def regSpecB : FieldSpec := { id := "f", el := true, value := .str "b" }

/-- The validator after registering "f" once (with "a"). -/
def regOnce : Validator := (emptyValidator.register regSpecA).1

/-- The validator after registering "f" a second time (with "b"). -/
def regTwice : Validator := (regOnce.register regSpecB).1

/-- C7 counterexample: the second registration of "f" with "b" overwrites
the stored value with (the clone of) "b" and flips `dirty` and `touched`
to true — so the field store after two registrations differs from the
store after one, refuting the claimed no-op. -/
theorem C7_counterexample :
    (regOnce.fieldContainer.get "f").map Field.value = some (.str "a") ∧
    (regOnce.fieldContainer.get "f").map Field.dirty = some false ∧
    (regTwice.fieldContainer.get "f").map Field.value = some (.str "b") ∧
    (regTwice.fieldContainer.get "f").map Field.dirty = some true ∧
    (some false : Option Bool) ≠ some true :=
  ⟨rfl, rfl, rfl, rfl, by decide⟩

/-- C7 (amended): when the id is already registered, the second `register`
creates no new entry and leaves the stored field's `initialValue` and
cached `data` unchanged, but it is not a no-op: it re-validates the stored
field with the newly supplied value, so the stored value becomes the clone
of the second value and dirty/touched/valid/states are recomputed. -/
theorem C7_duplicate_register_revalidates (V : Validator) (spec : FieldSpec)
    (f : Field) (vObjReg vObj : VRule) (cmp valid : Bool) (w : JSVal)
    (sts : List (String × Bool)) (statePart : List Message)
    (hreg : V.validationContainer.get spec.validationMethod = .ok vObjReg)
    (hdup : V.fieldContainer.get spec.id = some f)
    (hr : V.validationContainer.get (some f.validationMethod) = .ok vObj)
    (hc : callComparison vObj.comparison f.initialValue spec.value = .ok cmp)
    (hw : clone spec.value = .ok w)
    (hp : callPredicate vObj.validate spec.value = .ok valid)
    (hs : computeStates vObj.states spec.value f.value f.data = .ok sts)
    (hb : buildStateMessages (vObj.states.getD []) spec.value w f.data f.title sts =
      .ok statePart) :
    (V.register spec).2 = .ok () ∧
    (V.register spec).1.fieldContainer.fields.map Field.id =
      V.fieldContainer.fields.map Field.id ∧
    (V.register spec).1.fieldContainer.get spec.id = some
      { f with
        value := w, dirty := !cmp, touched := f.touched || !cmp,
        valid := some valid, states := sts } ∧
    ((V.register spec).1.fieldContainer.get spec.id).map Field.initialValue =
      some f.initialValue ∧
    ((V.register spec).1.fieldContainer.get spec.id).map Field.data = some f.data := by
  obtain ⟨hfid, hfmem, hhas⟩ := FieldContainer.get_eq_some _ _ _ hdup
  have hadd : ∀ dv : JSVal,
      V.fieldContainer.add { spec with data := dv } = (V.fieldContainer, .ok ()) := by
    intro dv
    unfold FieldContainer.add
    have h2 : V.fieldContainer.has (FieldSpec.id { spec with data := dv }) = true := hhas
    simp [h2]
  have hvf := validateField_eq V f spec.value vObj cmp w valid sts statePart
    hr hc hw hp hs hb
  have hfull : V.register spec =
      ({ V with
         fieldContainer := V.fieldContainer.update f.id
           { f with
             value := w, dirty := !cmp, touched := f.touched || !cmp,
             valid := some valid, states := sts },
         messageContainer :=
           ((if valid then [] else
             [({ id := "invalid", title := f.title,
                 message := resolveMessage vObj.message spec.value w } : Message)]) ++
             statePart).foldl
             (fun acc m => acc.add f.id m) (V.messageContainer.reset f.id) },
       .ok ()) := by
    unfold Validator.register
    simp only [hreg, hadd, hdup, hvf]
  have hupd : ∀ id' : String,
      (V.fieldContainer.update f.id
        { f with
          value := w, dirty := !cmp, touched := f.touched || !cmp,
          valid := some valid, states := sts }).get id' =
      (V.fieldContainer.get id').map (fun g =>
        if g.id == f.id then
          { f with
            value := w, dirty := !cmp, touched := f.touched || !cmp,
            valid := some valid, states := sts }
        else g) :=
    FieldContainer.get_update V.fieldContainer f.id _ rfl
  refine ⟨by rw [hfull], ?_, ?_, ?_, ?_⟩
  · rw [hfull]
    exact FieldContainer.update_map_id V.fieldContainer f.id _ rfl
  · rw [hfull]
    rw [show ({ V with
        fieldContainer := V.fieldContainer.update f.id
          { f with
            value := w, dirty := !cmp, touched := f.touched || !cmp,
            valid := some valid, states := sts },
        messageContainer :=
          ((if valid then [] else
            [({ id := "invalid", title := f.title,
                message := resolveMessage vObj.message spec.value w } : Message)]) ++
            statePart).foldl
            (fun acc m => acc.add f.id m)
            (V.messageContainer.reset f.id) } : Validator).fieldContainer =
        V.fieldContainer.update f.id
          { f with
            value := w, dirty := !cmp, touched := f.touched || !cmp,
            valid := some valid, states := sts } from rfl]
    rw [hupd spec.id, hdup]
    simp [hfid]
  · rw [hfull]
    rw [show ({ V with
        fieldContainer := V.fieldContainer.update f.id
          { f with
            value := w, dirty := !cmp, touched := f.touched || !cmp,
            valid := some valid, states := sts },
        messageContainer :=
          ((if valid then [] else
            [({ id := "invalid", title := f.title,
                message := resolveMessage vObj.message spec.value w } : Message)]) ++
            statePart).foldl
            (fun acc m => acc.add f.id m)
            (V.messageContainer.reset f.id) } : Validator).fieldContainer =
        V.fieldContainer.update f.id
          { f with
            value := w, dirty := !cmp, touched := f.touched || !cmp,
            valid := some valid, states := sts } from rfl]
    rw [hupd spec.id, hdup]
    simp [hfid]
  · rw [hfull]
    rw [show ({ V with
        fieldContainer := V.fieldContainer.update f.id
          { f with
            value := w, dirty := !cmp, touched := f.touched || !cmp,
            valid := some valid, states := sts },
        messageContainer :=
          ((if valid then [] else
            [({ id := "invalid", title := f.title,
                message := resolveMessage vObj.message spec.value w } : Message)]) ++
            statePart).foldl
            (fun acc m => acc.add f.id m)
            (V.messageContainer.reset f.id) } : Validator).fieldContainer =
        V.fieldContainer.update f.id
          { f with
            value := w, dirty := !cmp, touched := f.touched || !cmp,
            valid := some valid, states := sts } from rfl]
    rw [hupd spec.id, hdup]
    simp [hfid]

/-- C7 witness: the amended theorem at the concrete duplicate
registration: the entry list keeps its single id, `initialValue` stays
(the clone of) "a" while the stored value becomes "b". -/
theorem C7_witness :
    regOnce.fieldContainer.get "f" = some
      { id := "f", el := true, title := none, group := none,
        validationMethod := "required", data := .undefined, value := .str "a",
        initialValue := .str "a", dirty := false, touched := false,
        valid := some true, states := [] } ∧
    (regOnce.register regSpecB).2 = .ok () ∧
    (regOnce.register regSpecB).1.fieldContainer.fields.map Field.id =
      regOnce.fieldContainer.fields.map Field.id ∧
    ((regOnce.register regSpecB).1.fieldContainer.get "f").map Field.initialValue =
      some (.str "a") := by
  have h := C7_duplicate_register_revalidates regOnce regSpecB
    { id := "f", el := true, title := none, group := none,
      validationMethod := "required", data := .undefined, value := .str "a",
      initialValue := .str "a", dirty := false, touched := false,
      valid := some true, states := [] }
    (mergeRule (some reqRule) none) (mergeRule (some reqRule) none)
    false true (.str "b") [] []
    rfl rfl rfl rfl rfl rfl rfl rfl
  exact ⟨rfl, h.1, h.2.1, h.2.2.2.1⟩

theorem FieldContainer.get_update_ne (fc : FieldContainer) (k : String) (f' : Field)
    (hk : f'.id = k) (id' : String) (hne : id' ≠ k) :
    (fc.update k f').get id' = fc.get id' := by
  rw [FieldContainer.get_update fc k f' hk id']
  cases hg : fc.get id' with
  | none => rfl
  | some g =>
    have hgid : g.id = id' := (FieldContainer.get_eq_some fc id' g hg).1
    have hgk : (g.id == k) = false := by simp [hgid, hne]
    show some (if (g.id == k) = true then f' else g) = some g
    rw [if_neg (by simp [hgk])]

theorem FieldContainer.get_update_self (fc : FieldContainer) (k : String) (f' : Field)
    (hk : f'.id = k) (f : Field) (hg : fc.get k = some f) :
    (fc.update k f').get k = some f' := by
  rw [FieldContainer.get_update fc k f' hk k, hg]
  have hfk : f.id = k := (FieldContainer.get_eq_some fc k f hg).1
  simp [hfk]

theorem resetGo_spec (ids : List String) : ∀ (V W : Validator),
    V.resetGo ids = (W, .ok ()) → ids.Nodup →
    W.validationContainer = V.validationContainer ∧
    W.fieldContainer.fields.map Field.id = V.fieldContainer.fields.map Field.id ∧
    (∀ id', id' ∉ ids → W.fieldContainer.get id' = V.fieldContainer.get id') ∧
    (∀ f : Field, f.id ∈ ids → V.fieldContainer.get f.id = some f →
      ∃ w b v sts,
        W.fieldContainer.get f.id = some
          { f with
            initialValue := f.value, value := w, dirty := b,
            touched := f.touched || b, valid := some v, states := sts } ∧
        (∀ vObj c, V.validationContainer.get (some f.validationMethod) = .ok vObj →
          vObj.comparison = some c → c f.value f.value = true → b = false)) := by
  induction ids with
  | nil =>
    intro V W h hnd
    unfold Validator.resetGo at h
    have hW : V = W := congrArg Prod.fst h
    subst hW
    exact ⟨rfl, rfl, fun id' _ => rfl, fun f hf _ => absurd hf (List.not_mem_nil f.id)⟩
  | cons id ids ih =>
    intro V W h hnd
    have hnd' := List.nodup_cons.mp hnd
    unfold Validator.resetGo at h
    cases hg : V.fieldContainer.get id with
    | none =>
      rw [hg] at h
      exact Except.noConfusion (congrArg Prod.snd h)
    | some f0 =>
      rw [hg] at h
      simp only [] at h
      split at h
      · next e heq =>
        exact Except.noConfusion (congrArg Prod.snd h)
      · next V2 b2 heq =>
        have hf0id : f0.id = id := (FieldContainer.get_eq_some _ _ _ hg).1
        subst hf0id
        obtain ⟨vObj2, cmp, w, sts, statePart, h1, h2, h3, h4, h5, h6, hV2⟩ :=
          validateField_ok_inv _ _ _ _ _ heq
        obtain ⟨ihval, ihids, ihframe, ihfield⟩ := ih V2 W h hnd'.2
        have hV2fc : V2.fieldContainer =
            (V.fieldContainer.update f0.id { f0 with initialValue := f0.value }).update f0.id
              { f0 with
                initialValue := f0.value, value := w, dirty := !cmp,
                touched := f0.touched || !cmp, valid := some b2, states := sts } := by
          rw [hV2]
        have hV2val : V2.validationContainer = V.validationContainer := by
          rw [hV2]
        have hstep_ne : ∀ id', id' ≠ f0.id →
            V2.fieldContainer.get id' = V.fieldContainer.get id' := by
          intro id' hne
          rw [hV2fc,
            FieldContainer.get_update_ne _ f0.id
              { f0 with
                initialValue := f0.value, value := w, dirty := !cmp,
                touched := f0.touched || !cmp, valid := some b2, states := sts }
              rfl id' hne,
            FieldContainer.get_update_ne _ f0.id
              { f0 with initialValue := f0.value } rfl id' hne]
        have hstep_self : V2.fieldContainer.get f0.id = some
            { f0 with
              initialValue := f0.value, value := w, dirty := !cmp,
              touched := f0.touched || !cmp, valid := some b2, states := sts } := by
          rw [hV2fc]
          have hmid : (V.fieldContainer.update f0.id
              { f0 with initialValue := f0.value }).get f0.id =
              some { f0 with initialValue := f0.value } :=
            FieldContainer.get_update_self _ f0.id _ rfl f0 hg
          exact FieldContainer.get_update_self _ f0.id _ rfl _ hmid
        refine ⟨ihval.trans hV2val, ?_, ?_, ?_⟩
        · rw [ihids, hV2fc,
            FieldContainer.update_map_id _ f0.id
              { f0 with
                initialValue := f0.value, value := w, dirty := !cmp,
                touched := f0.touched || !cmp, valid := some b2, states := sts } rfl,
            FieldContainer.update_map_id _ f0.id
              { f0 with initialValue := f0.value } rfl]
        · intro id' hnotin
          have hne : id' ≠ f0.id := fun hq => hnotin (hq ▸ List.mem_cons_self f0.id ids)
          have hnotin' : id' ∉ ids := fun hq => hnotin (List.mem_cons_of_mem f0.id hq)
          rw [ihframe id' hnotin', hstep_ne id' hne]
        · intro f hfin hgf
          rcases List.mem_cons.mp hfin with hfid | hfin'
          · have hff0 : f = f0 := by
              rw [hfid] at hgf
              exact Option.some.inj (hgf.symm.trans hg)
            subst hff0
            have hnotin : f.id ∉ ids := hfid ▸ hnd'.1
            refine ⟨w, !cmp, b2, sts, ?_, ?_⟩
            · rw [ihframe f.id hnotin, hfid, hstep_self]
            · intro vObj c hrv hcc hrefl
              have h1' : V.validationContainer.get (some f.validationMethod) =
                  .ok vObj2 := h1
              rw [hrv] at h1'
              have hvv : vObj = vObj2 := Except.ok.inj h1'
              subst hvv
              have h2' : callComparison vObj.comparison f.value f.value = .ok cmp := h2
              rw [hcc] at h2'
              unfold callComparison at h2'
              have hcm : c f.value f.value = cmp := Except.ok.inj h2'
              rw [hrefl] at hcm
              rw [← hcm]
              rfl
          · have hne : f.id ≠ f0.id := by
              intro hq
              exact hnd'.1 (hq ▸ hfin')
            have hgf2 : V2.fieldContainer.get f.id = some f := by
              rw [hstep_ne f.id hne, hgf]
            obtain ⟨w', b', v', sts', hW, himpl⟩ := ihfield f hfin' hgf2
            refine ⟨w', b', v', sts', hW, ?_⟩
            intro vObj c hrv hcc hrefl
            refine himpl vObj c ?_ hcc hrefl
            rw [hV2val]
            exact hrv

/-- A field in group "A", clean. -/
def groupAField : Field :=
  { id := "f1", el := true, title := none, group := some (.one "A"),
    validationMethod := "req", data := .undefined, value := .str "v1",
    initialValue := .str "v1", dirty := false, touched := false,
    valid := some true, states := [] }

/-- A field in group "B", dirty: its value "y" differs from its baseline
"x". -/
def groupBField : Field :=
  { id := "f2", el := true, title := none, group := some (.one "B"),
    validationMethod := "req", data := .undefined, value := .str "y",
    initialValue := .str "x", dirty := true, touched := true,
    valid := some true, states := [] }

/-- A validator with the two grouped fields. -/
def groupedValidator : Validator :=
  { validationContainer := { validations := [("req", reqRule)], fallback := none },
    fieldContainer := { fields := [groupAField, groupBField] },
    messageContainer := { messages := [] } }

/-- C6 counterexample: calling `reset("A")` also resets the field "f2" of
group "B": its `initialValue` collapses from "x" to its current value "y"
and its `dirty` flag drops to false — the out-of-group field is NOT left
unchanged. -/
theorem C6_counterexample :
    matchesGroup groupBField.group "A" = false ∧
    ((groupedValidator.resetWithGroup (some "A")).1.fieldContainer.get "f2").map
      Field.initialValue = some (.str "y") ∧
    (groupedValidator.fieldContainer.get "f2").map Field.initialValue =
      some (.str "x") ∧
    ((groupedValidator.resetWithGroup (some "A")).1.fieldContainer.get "f2").map
      Field.dirty = some false ∧
    (groupedValidator.fieldContainer.get "f2").map Field.dirty = some true ∧
    (some (JSVal.str "y") : Option JSVal) ≠ some (.str "x") :=
  ⟨rfl, rfl, rfl, rfl, rfl, by simp⟩

/-- C6 (amended): `reset(group)` ignores its group argument — after a
successful reset EVERY registered field, whether in the group or not, has
`initialValue` set to its pre-call stored value and, whenever its resolved
comparison is reflexive at that value, `dirty = false`; the set of stored
ids is unchanged. -/
theorem C6_reset_ignores_group_and_resets_all (V W : Validator)
    (group : Option String)
    (hrun : V.resetWithGroup group = (W, .ok ()))
    (hnd : (V.fieldContainer.fields.map Field.id).Nodup) :
    W.fieldContainer.fields.map Field.id = V.fieldContainer.fields.map Field.id ∧
    ∀ f : Field, V.fieldContainer.get f.id = some f →
      ∃ w b v sts,
        W.fieldContainer.get f.id = some
          { f with
            initialValue := f.value, value := w, dirty := b,
            touched := f.touched || b, valid := some v, states := sts } ∧
        (∀ vObj c, V.validationContainer.get (some f.validationMethod) = .ok vObj →
          vObj.comparison = some c → c f.value f.value = true → b = false) := by
  have hspec := resetGo_spec (V.fieldContainer.fields.map Field.id) V W hrun hnd
  refine ⟨hspec.2.1, ?_⟩
  intro f hgf
  have hmem : f ∈ V.fieldContainer.fields :=
    (FieldContainer.get_eq_some _ _ _ hgf).2.1
  exact hspec.2.2.2 f (List.mem_map.mpr ⟨f, hmem, rfl⟩) hgf

/-- The validator state reached by the concrete C6 reset. -/
def c6run : Validator := (groupedValidator.resetWithGroup (some "A")).1

/-- C6 witness: the amended theorem at the concrete grouped validator. -/
theorem C6_witness :
    (groupedValidator.resetWithGroup (some "A") = (c6run, .ok ()) ∧
     (groupedValidator.fieldContainer.fields.map Field.id).Nodup) ∧
    c6run.fieldContainer.fields.map Field.id =
      groupedValidator.fieldContainer.fields.map Field.id :=
  ⟨⟨rfl, by decide⟩,
    (C6_reset_ignores_group_and_resets_all groupedValidator c6run (some "A")
      rfl (by decide)).1⟩

/-- One public mutating call of the sequences considered by the
monotonic-touched invariant. -/
inductive VOp where
  | validate (id : String) (value : JSVal)
  | validateAll (group : Option String)
  | reset (group : Option String)

/-- The validator state reached by one call (a throw keeps the state
reached up to the throw, as the underlying operations model). -/
def applyOp (V : Validator) : VOp → Validator
  | .validate id v => (V.validate id v).1
  | .validateAll g => (V.validateAll g).1
  | .reset g => (V.resetWithGroup g).1

/-- The state reached by a sequence of calls. -/
def applyOps (V : Validator) (ops : List VOp) : Validator :=
  ops.foldl applyOp V

/-- The `touched` flag of the field stored under an id (false when no such
field exists). -/
def touchedAt (V : Validator) (id : String) : Bool :=
  ((V.fieldContainer.get id).map Field.touched).getD false

theorem validateField_touchedAt (V V' : Validator) (g : Field) (val : JSVal)
    (b : Bool) (id : String)
    (hg : V.fieldContainer.get g.id = some g)
    (hrun : V.validateField g val = .ok (V', b))
    (h : touchedAt V id = true) : touchedAt V' id = true := by
  obtain ⟨vObj, cmp, w, sts, statePart, h1, h2, h3, h4, h5, h6, hV⟩ :=
    validateField_ok_inv _ _ _ _ _ hrun
  have hfc : V'.fieldContainer = V.fieldContainer.update g.id
      { g with
        value := w, dirty := !cmp, touched := g.touched || !cmp,
        valid := some b, states := sts } := by
    rw [hV]
  by_cases hid : id = g.id
  · subst hid
    unfold touchedAt at h ⊢
    rw [hfc, FieldContainer.get_update_self _ g.id
      { g with
        value := w, dirty := !cmp, touched := g.touched || !cmp,
        valid := some b, states := sts } rfl g hg]
    rw [hg] at h
    simp at h
    simp [h]
  · unfold touchedAt at h ⊢
    rw [hfc, FieldContainer.get_update_ne _ g.id
      { g with
        value := w, dirty := !cmp, touched := g.touched || !cmp,
        valid := some b, states := sts } rfl id hid]
    exact h

theorem validate_touchedAt (V : Validator) (id0 : String) (v : JSVal) (id : String)
    (h : touchedAt V id = true) : touchedAt (V.validate id0 v).1 id = true := by
  unfold Validator.validate
  split
  · exact h
  · split
    · exact h
    · next f hgf =>
      split
      · exact h
      · next vObj heq =>
        split
        · exact h
        · next cmp heq2 =>
          split
          · exact h
          · split
            · next V2 b2 hvf =>
              have hfid : f.id = id0 := (FieldContainer.get_eq_some _ _ _ hgf).1
              have hg2 : V.fieldContainer.get f.id = some f := by rw [hfid]; exact hgf
              exact validateField_touchedAt V V2 f v b2 id hg2 hvf h
            · exact h

theorem validateAllGo_touchedAt (ids : List String) :
    ∀ (V : Validator) (acc : Bool) (id : String),
      touchedAt V id = true → touchedAt (V.validateAllGo acc ids).1 id = true := by
  induction ids with
  | nil => exact fun V acc id h => h
  | cons i ids ih =>
    intro V acc id h
    unfold Validator.validateAllGo
    split
    · exact h
    · next f hgf =>
      split
      · exact h
      · next V2 b2 hvf =>
        have hfid : f.id = i := (FieldContainer.get_eq_some _ _ _ hgf).1
        have hg2 : V.fieldContainer.get f.id = some f := by rw [hfid]; exact hgf
        exact ih V2 (acc && b2) id
          (validateField_touchedAt V V2 f f.value b2 id hg2 hvf h)

theorem resetGo_touchedAt (ids : List String) :
    ∀ (V : Validator) (id : String),
      touchedAt V id = true → touchedAt (V.resetGo ids).1 id = true := by
  induction ids with
  | nil => exact fun V id h => h
  | cons i ids ih =>
    intro V id h
    unfold Validator.resetGo
    split
    · exact h
    · next f hgf =>
      have hfid : f.id = i := (FieldContainer.get_eq_some _ _ _ hgf).1
      have h1 : touchedAt
          ({ V with fieldContainer :=
              V.fieldContainer.update i { f with initialValue := f.value } } : Validator)
          id = true := by
        unfold touchedAt at h ⊢
        show (Option.map Field.touched
          ((V.fieldContainer.update i { f with initialValue := f.value }).get id)).getD
          false = true
        by_cases hid : id = i
        · subst hid
          rw [FieldContainer.get_update_self _ id
            { f with initialValue := f.value } hfid f hgf]
          rw [hgf] at h
          simpa using h
        · rw [FieldContainer.get_update_ne _ i
            { f with initialValue := f.value } hfid id hid]
          exact h
      simp only []
      split
      · exact h1
      · next V2 b2 hvf =>
        have hg2 : ({ V with fieldContainer :=
            V.fieldContainer.update i { f with initialValue := f.value } } :
            Validator).fieldContainer.get
            (Field.id { f with initialValue := f.value }) =
            some { f with initialValue := f.value } := by
          show (V.fieldContainer.update i { f with initialValue := f.value }).get f.id =
            some { f with initialValue := f.value }
          set r : Field := { f with initialValue := f.value } with hrdef
          rw [hfid]
          exact FieldContainer.get_update_self _ i r (by rw [hrdef]; exact hfid) f hgf
        exact ih V2 id
          (validateField_touchedAt _ V2 { f with initialValue := f.value } f.value b2 id
            hg2 hvf h1)

/-- C5: for every field and every sequence of `validate`, `validateAll`
and `reset` calls, once the stored field's `touched` flag is true it is
still true in the state reached by the sequence (reset clears dirtiness
baselines but never clears `touched`). -/
theorem C5_touched_monotonic (V : Validator) (ops : List VOp) (id : String)
    (h : touchedAt V id = true) : touchedAt (applyOps V ops) id = true := by
  induction ops generalizing V with
  | nil => exact h
  | cons op ops ih =>
    refine ih (applyOp V op) ?_
    cases op with
    | validate id0 v => exact validate_touchedAt V id0 v id h
    | validateAll g => exact validateAllGo_touchedAt _ V true id h
    | reset g => exact resetGo_touchedAt _ V id h

/-- A touched field used by the C5 witness. -/
def touchedField : Field :=
  { id := "f", el := true, title := none, group := none, validationMethod := "req",
    data := .undefined, value := .str "b", initialValue := .str "a",
    dirty := true, touched := true, valid := some true, states := [] }

/-- A validator holding the touched field. -/
def touchedValidator : Validator :=
  { validationContainer := { validations := [("req", reqRule)], fallback := none },
    fieldContainer := { fields := [touchedField] },
    messageContainer := { messages := [] } }

/-- C5 witness: after a `validate` with a fresh value, a full `reset` and a
`validateAll`, the concrete field's `touched` flag is still true. -/
theorem C5_witness :
    touchedAt touchedValidator "f" = true ∧
    touchedAt (applyOps touchedValidator
      [.validate "f" (.str "c"), .reset none, .validateAll none]) "f" = true :=
  ⟨rfl, C5_touched_monotonic touchedValidator
    [.validate "f" (.str "c"), .reset none, .validateAll none] "f" rfl⟩

end VSV
